import Mathlib

/-!
Verification of the token-HUD core of `pf2e-hud` (`src/hud/token.ts`).

The development shallowly embeds the two classes of the source file:
`PF2eHudToken` (visibility/selection state machine, close-policy
evaluation, render pipeline, position resolver) and
`PF2eHudSidebarActions` (actions sidebar context assembly and its
listeners).  External collaborators (the canvas, the settings store,
stat-block providers, the toolbelt module) are passed in as explicit
parameters.  Operations of base classes that are not part of the
source excerpt (`PF2eHudBaseToken.setToken`, `close`, `toggleSidebar`)
are modelled from the specification and marked as such in their doc
comments.
-/

/-! Part: Visibility / selection state machine -/

/-- Actor categories relevant to `actor.isOfType("loot", "party")`. -/
inductive ActorType where
  | character
  | npc
  | hazard
  | vehicle
  | army
  | loot
  | party
deriving DecidableEq, Repr

/-- The fields of `token.actor` read by `PF2eHudToken.setToken`:
ownership, category, `actor.sheet.rendered`, and
`hud.persistent.isCurrentActor(actor, true)`. -/
structure ActorRef where
  isOwner : Bool
  actorType : ActorType
  sheetRendered : Bool
  persistentCurrent : Bool
deriving DecidableEq, Repr

/-- A token candidate; `actor` is `none` when the token has no actor. -/
structure TokenRef where
  id : Nat
  actor : Option ActorRef
deriving DecidableEq, Repr

/-- The single-slot state owned by the HUD: the tracked token
(`Closed` when `none`, `Open` otherwise) and the sidebar slot. -/
structure HudState where
  token : Option TokenRef
  sidebar : Option String
deriving DecidableEq, Repr

/-- Modelled from the spec: `toggleSidebar` lives in the advanced-HUD
base class (`hud/base/advanced.ts`), which is not part of the excerpt.
Per the spec, `toggleSidebar(name | null)`: a `null` argument forces
`None`; the currently showing name closes it; any other name switches
to `Showing(name)`. -/
def toggleSidebar (s : HudState) (name : Option String) : HudState :=
  match name with
  | none => { s with sidebar := none }
  | some n => if s.sidebar = some n then { s with sidebar := none } else { s with sidebar := some n }

/-- Modelled from the spec: `PF2eHudBaseToken.setToken` (base class in
`hud/base/token.ts`, not part of the excerpt) stores the candidate in
the single tracked-token slot: `null` yields `Closed`, non-null yields
`Open(token)`. -/
def superSetToken (s : HudState) (t : Option TokenRef) : HudState :=
  { s with token := t }

/-- Modelled from the spec: `close()` (base application machinery, not
part of the excerpt) is equivalent to `setToken(null)`, and closing
the main HUD forces `SidebarState = None`. -/
def close (_s : HudState) : HudState :=
  { token := none, sidebar := none }

/-- Embedding of `PF2eHudToken.setToken` (src/src/hud/token.ts, lines 321 to 337):
always force-closes the sidebar first; a `null` candidate is stored
directly; a non-null candidate is downgraded to `null` when its actor
is missing or not owned, is of type loot or party, already has a
rendered sheet, or is the current actor of the persistent HUD. -/
def setToken (s : HudState) (token : Option TokenRef) : HudState :=
  let s := toggleSidebar s none
  match token with
  | none => superSetToken s none
  | some tok =>
      let ineligible : Bool :=
        match tok.actor with
        | none => true
        | some actor =>
            !actor.isOwner || actor.actorType == .loot || actor.actorType == .party ||
              actor.sheetRendered || actor.persistentCurrent
      superSetToken s (if ineligible then none else some tok)

/-- An operation of the visibility state machine, for reasoning about
sequences of `setToken` and `close` calls. -/
inductive HudOp where
  | setTok (t : Option TokenRef)
  | closeOp
deriving DecidableEq, Repr

/-- Run one operation. -/
def runOp (s : HudState) : HudOp → HudState
  | .setTok t => setToken s t
  | .closeOp => close s

/-- Run a sequence of operations, left to right. -/
def runOps (s : HudState) : List HudOp → HudState
  | [] => s
  | op :: ops => runOps (runOp s op) ops

/-! Part: Close-policy evaluation -/

/-- The three close-policy values (`CLOSE_OPTIONS` in the source). -/
inductive CloseOption where
  | never
  | sidebar
  | all
deriving DecidableEq, Repr

/-- The semantic events fed to `closeIf` (the `AdvancedHudEvent` type
of the base class; the settings `closeOnSendToChat` and
`closeOnSpell` appear in `SETTINGS_ORDER`). -/
inductive AdvancedHudEvent where
  | sendToChat
  | castSpell
deriving DecidableEq, Repr

/-- Embedding of `PF2eHudToken.closeIf` (src/src/hud/token.ts, lines 339 to 351).
`polFor` is the composition of `eventToSetting` with `getSetting`,
i.e. the configured policy for each event.  Returns the new state and
the boolean result of the method. -/
def closeIf (polFor : AdvancedHudEvent → CloseOption) (e : AdvancedHudEvent)
    (s : HudState) : HudState × Bool :=
  match polFor e with
  | .never => (s, false)
  | .all => (close s, true)
  | .sidebar => (toggleSidebar s none, true)

/-- Classification of `document.activeElement` as read by
`#clickClose`. -/
inductive FocusedElem where
  | textInput
  | textArea
  | other
deriving DecidableEq, Repr

/-- Embedding of `PF2eHudToken.#clickClose` (src/src/hud/token.ts, lines 353 to
368).  Returns the new state and whether the focused element was
blurred. -/
def clickClose (closeAllOnClick : Bool) (focused : FocusedElem) (s : HudState) :
    HudState × Bool :=
  if closeAllOnClick then (close s, false)
  else
    match focused with
    | .textInput => (s, true)
    | .textArea => (s, true)
    | .other =>
        if s.sidebar.isSome then (toggleSidebar s none, false)
        else (close s, false)

/-! Part: Render pipeline -/

/-- The health payload of the stat header; its exact shape does not
matter to the pipeline, only its presence. -/
structure Health where
  value : Int
  max : Int
deriving DecidableEq, Repr

/-- The context produced by `super._prepareContext` of the base class;
the pipeline only reads `hasActor` from it, the rest is opaque
payload. -/
structure BaseTokenCtx where
  hasActor : Bool
  payload : List String
deriving DecidableEq, Repr

/-- The full `TokenContext` assembled when the actor has health data:
base fields plus the stat header, advanced stats, header extras,
sidebar descriptors and the token name. -/
structure FullTokenCtx where
  base : BaseTokenCtx
  health : Health
  statsHeaderRest : List String
  advancedStats : List String
  headerExtras : List String
  sidebars : List String
  name : String
deriving DecidableEq, Repr

/-- Result of `PF2eHudToken._prepareContext`: either the bare parent
data (`TokenContextBase`) or the full context. -/
inductive TokenCtx where
  | base (b : BaseTokenCtx)
  | full (f : FullTokenCtx)
deriving DecidableEq, Repr

/-- Embedding of `PF2eHudToken._prepareContext` (src/src/hud/token.ts, lines 198 to
216).  The external providers `getStatsHeader`, `getAdvancedStats`,
`getStatsHeaderExtras` and `getSidebars` are passed in as the values
they return for the tracked actor; `getStatsHeader` is split into its
`health` field and the rest of its payload. -/
def prepareContext (parentData : BaseTokenCtx) (statsHeaderHealth : Option Health)
    (statsHeaderRest : List String) (advanced : List String) (extras : List String)
    (sidebars : List String) (tokenName : String) : TokenCtx :=
  if parentData.hasActor = false then .base parentData
  else
    match statsHeaderHealth with
    | none => .base parentData
    | some h => .full ⟨parentData, h, statsHeaderRest, advanced, extras, sidebars, tokenName⟩

/-- The `health` field of a `Partial<TokenContext>`: absent on the
base context. -/
def ctxHealth : TokenCtx → Option Health
  | .base _ => none
  | .full f => some f.health

/-- Embedding of `PF2eHudToken._renderHTML` (src/src/hud/token.ts, lines 218 to
221): an empty string when the context has no health, otherwise the
rendered template (`renderTemplate` is the external template engine,
passed as `template`). -/
def renderHTML (template : TokenCtx → String) (ctx : TokenCtx) : String :=
  match ctxHealth ctx with
  | none => ""
  | some _ => template ctx

/-! Part: DOM swap and focus preservation -/

/-- An input element of the main HUD subtree: its `name` attribute and
whether it currently has keyboard focus. -/
structure DomInput where
  name : String
  focused : Bool
deriving DecidableEq, Repr

/-- The `mode` setting (`"exploded" | "left" | "right"`). -/
inductive HudMode where
  | exploded
  | leftMode
  | rightMode
deriving DecidableEq, Repr

/-- The main HUD element: its input elements in document order, the
class list added for exploded mode, and the class list of the joined
wrapper div when one is created. -/
structure MainElem where
  inputs : List DomInput
  classes : List String
  wrapper : Option (List String)
deriving DecidableEq, Repr

/-- Embedding of `querySelector` with selector `input[name="..."]` followed by
`.focus()`: focuses the first input carrying the given name, leaving
everything else unchanged. -/
def focusFirstNamed (n : String) : List DomInput → List DomInput
  | [] => []
  | i :: is => if i.name = n then { i with focused := true } :: is else i :: focusFirstNamed n is

/-- The class list added directly on the main element: `exploded` in
exploded mode. -/
def modeClasses : HudMode → List String
  | .exploded => ["exploded"]
  | .leftMode => []
  | .rightMode => []

/-- The class list of the joined-mode wrapper div (`["joined"]`, plus
`"left"` for the left mode); no wrapper is created in exploded
mode. -/
def modeWrapper : HudMode → Option (List String)
  | .exploded => none
  | .leftMode => some ["joined", "left"]
  | .rightMode => some ["joined"]

/-- Embedding of `if (focusName) { querySelector(input[name=...])?.focus() }`: a
truthy (non-empty) remembered name focuses the first matching input of
the fresh subtree. -/
def applyFocusName (focusName : Option String) (newInputs : List DomInput) :
    List DomInput :=
  match focusName with
  | some n => if n ≠ "" then focusFirstNamed n newInputs else newInputs
  | none => newInputs

/-- Embedding of `PF2eHudToken._replaceHTML` (src/src/hud/token.ts, lines 223 to
260).  `oldMain` is the previous `#mainElement` (if any), `newInputs`
are the input elements parsed from the markup string (fresh DOM nodes,
hence unfocused), and `contentMainCount` counts the main containers
currently attached to `content`.  Returns the new main element and
the updated count: `replaceWith` keeps the count, `appendChild` adds
one. -/
def replaceHTML (oldMain : Option MainElem) (mode : HudMode) (newInputs : List DomInput)
    (contentMainCount : Nat) : MainElem × Nat :=
  let focusName := (oldMain.bind fun m => m.inputs.find? (fun i => i.focused)).map (fun i => i.name)
  let newCount := match oldMain with
    | some _ => contentMainCount
    | none => contentMainCount + 1
  (⟨applyFocusName focusName newInputs, modeClasses mode, modeWrapper mode⟩, newCount)

/-! Part: Anchor / position resolver -/

/-- Embedding of `canvas.primary.getGlobalPosition()`. -/
structure CanvasPoint where
  x : ℚ
  y : ℚ
deriving DecidableEq, Repr

/-- Embedding of `canvas.dimensions`: pixel width/height and the scene grid size. -/
structure CanvasDims where
  width : ℚ
  height : ℚ
  size : ℚ
deriving DecidableEq, Repr

/-- Embedding of `token.bounds` (top-left corner) and `token.document` grid
dimensions. -/
structure TokenGeometry where
  boundsLeft : ℚ
  boundsTop : ℚ
  docWidth : ℚ
  docHeight : ℚ
deriving DecidableEq, Repr

/-- The `ApplicationPosition` fields written by `_updatePosition`. -/
structure AppPosition where
  left : ℚ
  top : ℚ
  width : ℚ
  height : ℚ
  scale : ℚ
deriving DecidableEq, Repr

/-- The CSS geometry written onto `this.element`. -/
structure ElementStyle where
  left : ℚ
  top : ℚ
  width : ℚ
  height : ℚ
  scale : ℚ
deriving DecidableEq, Repr

/-- The CSS geometry written onto the main element. -/
structure MainStyle where
  left : ℚ
  top : ℚ
  width : ℚ
  height : ℚ
deriving DecidableEq, Repr

/-- The live inputs read by `_updatePosition`: canvas transform,
canvas dimensions, stage scale, token geometry and the
`scaleDimensions` setting. -/
structure PositionInputs where
  canvasPosition : CanvasPoint
  canvasDimensions : CanvasDims
  scale : ℚ
  scaleDimensions : Bool
  tokenGeometry : TokenGeometry
deriving DecidableEq, Repr

/-- Embedding of `PF2eHudToken._updatePosition` (src/src/hud/token.ts, lines 278 to
319).  `hasToken`/`hasElement`/`hasMain` are the presence of
`this.token`, `this.element` and `this.#mainElement`.  Returns the
(possibly unchanged) position object together with the styles written
to the container and the main element (`none` when the guard
short-circuits or the main element is absent). -/
def updatePosition (hasToken : Bool) (hasElement : Bool) (hasMain : Bool)
    (inp : PositionInputs) (position : AppPosition) :
    AppPosition × Option (ElementStyle × Option MainStyle) :=
  if !hasElement || !hasToken then (position, none)
  else
    let usedScale := if inp.scaleDimensions then 1 else inp.scale
    let posScale := if inp.scaleDimensions then inp.scale else 1
    let written : AppPosition :=
      { left := inp.canvasPosition.x
        top := inp.canvasPosition.y
        width := inp.canvasDimensions.width
        height := inp.canvasDimensions.height
        scale := posScale }
    let elStyle : ElementStyle :=
      { left := inp.canvasPosition.x
        top := inp.canvasPosition.y
        width := inp.canvasDimensions.width * usedScale
        height := inp.canvasDimensions.height * usedScale
        scale := posScale }
    let mainStyle : Option MainStyle :=
      if hasMain then
        let ratio := inp.canvasDimensions.size / 100
        some
          { left := inp.tokenGeometry.boundsLeft * usedScale
            top := inp.tokenGeometry.boundsTop * usedScale
            width := inp.tokenGeometry.docWidth * ratio * 100 * usedScale
            height := inp.tokenGeometry.docHeight * ratio * 100 * usedScale }
      else none
    (written, some (elStyle, mainStyle))

/-! Part: Actions sidebar: context assembly -/

/-- Item kinds iterated by `actorItems(actor, abilityTypes)`. -/
inductive AbilityKind where
  | featKind
  | actionKind
deriving DecidableEq, Repr

/-- Embedding of `ability.actionCost?.type`. -/
inductive ActionCostType where
  | action
  | reaction
  | free
deriving DecidableEq, Repr

/-- Embedding of `item.frequency`: uses per period.  `max = 0` models a falsy
`frequency.max`. -/
structure Frequency where
  max : Int
  value : Int
  per : String
deriving DecidableEq, Repr

/-- The fields of a feat/action item read by the actions-sidebar
loop. -/
structure Ability where
  id : String
  name : String
  kind : AbilityKind
  slug : Option String
  compendiumSource : Option String
  sourceId : Option String
  traits : List String
  actionCost : Option ActionCostType
  frequency : Option Frequency
  selfEffect : Bool
deriving DecidableEq, Repr

/-- Section keys of the `sections` record
(`ActionType | "exploration"`, plus `"passive"` for non-characters). -/
inductive SectionType where
  | action
  | reaction
  | free
  | passive
  | exploration
deriving DecidableEq, Repr

/-- The `sort` field of `ACTION_TYPES` (src/src/hud/token.ts, lines
430 to 436). -/
def ACTION_TYPES_sort : SectionType → Nat
  | .action => 0
  | .reaction => 1
  | .free => 2
  | .passive => 3
  | .exploration => 3

/-- The `label` field of `ACTION_TYPES`. -/
def ACTION_TYPES_label : SectionType → String
  | .action => "PF2E.ActionsActionsHeader"
  | .reaction => "PF2E.ActionsReactionsHeader"
  | .free => "PF2E.ActionsFreeActionsHeader"
  | .passive => "PF2E.NPC.PassivesLabel"
  | .exploration => "PF2E.TravelSpeed.ExplorationActivity"

/-- An `actionCost.type` used as a section key. -/
def costSection : ActionCostType → SectionType
  | .action => .action
  | .reaction => .reaction
  | .free => .free

/-- The actor fields read while building `actionSections`. -/
structure ActorActions where
  isCharacter : Bool
  kineticist : Bool
  effectSlugs : List String
  partiesSize : Nat
  explorations : List String
  items : List Ability
deriving Repr

/-- External collaborators of the actions sidebar: the toolbelt stance
list (`none` when the module or its stances setting is off), the
actionable setting and macro lookup, and localization/icon helpers. -/
structure ActionsExternals where
  stanceActionUUIDs : Option (List String)
  actionableEnabled : Bool
  actionMacroOf : String → Bool
  perLabel : String → String
  useLabel : String
  actionIcon : Option ActionCostType → String
  actionGlyph : Option ActionCostType → String

/-- The `usage` entry of an action row. -/
structure Usage where
  disabled : Bool
  label : String
deriving DecidableEq, Repr

/-- The `frequency` entry of an action row. -/
structure FrequencyData where
  max : Int
  value : Int
  label : String
deriving DecidableEq, Repr

/-- One row of a section (`ActionData` in the source). -/
structure ActionData where
  id : String
  usage : Option Usage
  frequency : Option FrequencyData
  name : String
  img : String
  isActive : Bool
deriving DecidableEq, Repr

/-- One section of `actionSections`. -/
structure ActionSection where
  type : SectionType
  label : String
  actions : List ActionData
deriving DecidableEq, Repr

/-- Embedding of `ability._stats.compendiumSource ?? ability.sourceId`. -/
def resolvedSource (a : Ability) : Option String :=
  match a.compendiumSource with
  | some s => some s
  | none => a.sourceId

/-- Embedding of `stances?.actions.map((x) => x.actionUUID) ?? []`: the stance
source UUIDs, only produced for characters with the toolbelt stances
feature on. -/
def stanceUUIDsOf (actor : ActorActions) (ext : ActionsExternals) : List String :=
  (if actor.isCharacter then ext.stanceActionUUIDs else none).getD []

/-- Embedding of `hasKineticAura` (src/src/hud/token.ts, lines 579 to 582). -/
def hasKineticAuraOf (actor : ActorActions) : Bool :=
  actor.isCharacter && actor.kineticist && actor.effectSlugs.contains "effect-kinetic-aura"

/-- Embedding of `abilityTypes`: `["action"]`, plus `"feat"` for characters. -/
def abilityKindAllowed (isCharacter : Bool) (a : Ability) : Bool :=
  match a.kind with
  | .actionKind => true
  | .featKind => isCharacter

/-- The `continue` condition of the loop (src/src/hud/token.ts, lines
598 to 605), negated: `true` when the ability is kept. -/
def abilityKept (actor : ActorActions) (ext : ActionsExternals) (a : Ability) : Bool :=
  let isExploration := actor.isCharacter && a.traits.contains "exploration"
  let inParty := actor.isCharacter && decide (0 < actor.partiesSize)
  !((a.slug == some "elemental-blast" && hasKineticAuraOf actor) ||
    (match resolvedSource a with
     | some s => (stanceUUIDsOf actor ext).contains s
     | none => false) ||
    (a.kind == .featKind && a.actionCost.isNone) ||
    a.traits.contains "downtime" ||
    (!inParty && isExploration))

/-- The section key of a kept ability: `actionCost?.type ??
(isCharacter ? (isExploration ? "exploration" : "free") :
"passive")`. -/
def abilitySection (actor : ActorActions) (a : Ability) : SectionType :=
  match a.actionCost with
  | some c => costSection c
  | none =>
      if actor.isCharacter then
        (if a.traits.contains "exploration" then .exploration else .free)
      else .passive

/-- The `frequency` row data (src/src/hud/token.ts, lines 619 to
630). -/
def abilityFrequency (ext : ActionsExternals) (a : Ability) : Option FrequencyData :=
  match a.frequency with
  | some f =>
      if f.max != 0 then
        some ⟨f.max, f.value, toString f.max ++ " / " ++ ext.perLabel f.per⟩
      else none
  | none => none

/-- The `usage` row data (src/src/hud/token.ts, lines 632 to 649). -/
def abilityUsage (actor : ActorActions) (ext : ActionsExternals) (a : Ability) :
    Option Usage :=
  let isExploration := actor.isCharacter && a.traits.contains "exploration"
  let frequency := abilityFrequency ext a
  if isExploration then none
  else if frequency.isNone && !a.selfEffect &&
      (!ext.actionableEnabled || !ext.actionMacroOf a.id) then none
  else
    some
      { disabled := match frequency with
          | some fd => fd.value == 0
          | none => false
        label := ext.useLabel ++ " <span class=\"action-glyph\">" ++
          ext.actionGlyph a.actionCost ++ "</span>" }

/-- The row pushed for a kept ability (src/src/hud/token.ts, lines 651
to 658). -/
def abilityRow (actor : ActorActions) (ext : ActionsExternals) (a : Ability) : ActionData :=
  let isExploration := actor.isCharacter && a.traits.contains "exploration"
  let explorations := if actor.isCharacter then actor.explorations else []
  { id := a.id
    usage := abilityUsage actor ext a
    frequency := abilityFrequency ext a
    name := a.name
    img := ext.actionIcon a.actionCost
    isActive := isExploration && explorations.contains a.id }

/-- Embedding of `sections[type] ??= {...}` followed by
`sections[type].actions.push(...)`: record keys appear in
first-assignment order, pushes append. -/
def addToSections (secs : List ActionSection) (ty : SectionType) (ad : ActionData) :
    List ActionSection :=
  match secs with
  | [] => [⟨ty, ACTION_TYPES_label ty, [ad]⟩]
  | s :: rest =>
      if s.type = ty then { s with actions := s.actions ++ [ad] } :: rest
      else s :: addToSections rest ty ad

/-- One iteration of the `for (const ability of actorItems(...))`
loop. -/
def sectionsStep (actor : ActorActions) (ext : ActionsExternals)
    (secs : List ActionSection) (a : Ability) : List ActionSection :=
  if abilityKindAllowed actor.isCharacter a && abilityKept actor ext a then
    addToSections secs (abilitySection actor a) (abilityRow actor ext a)
  else secs

/-- Ordering of sections by the fixed `ACTION_TYPES` sort index. -/
def secLe (s t : ActionSection) : Prop :=
  ACTION_TYPES_sort s.type ≤ ACTION_TYPES_sort t.type

instance : DecidableRel secLe := fun s t => Nat.decLe _ _

instance : IsTotal ActionSection secLe := ⟨fun s t => Nat.le_total _ _⟩

instance : IsTrans ActionSection secLe := ⟨fun _ _ _ h h2 => Nat.le_trans h h2⟩

/-- Ordering of rows by name (`R.sortBy(actions, R.prop("name"))`). -/
def nameLe (a b : ActionData) : Prop := a.name ≤ b.name

instance : DecidableRel nameLe := fun a b => inferInstanceAs (Decidable (a.name ≤ b.name))

instance : IsTotal ActionData nameLe := ⟨fun a b => le_total a.name b.name⟩

instance : IsTrans ActionData nameLe := ⟨fun _ _ _ h h2 => le_trans h h2⟩

/-- The `actionSections` value of
`PF2eHudSidebarActions._prepareContext` (src/src/hud/token.ts, lines
573 to 667): the loop populates the record in insertion order, the
record values are then stably sorted by the fixed type order and each
sections rows are stably sorted by name.  `R.sortBy` is a stable sort
by key, embedded as insertion sort with the key order. -/
def buildActionSections (actor : ActorActions) (ext : ActionsExternals) :
    List ActionSection :=
  let secs := actor.items.foldl (sectionsStep actor ext) []
  (List.insertionSort secLe secs).map
    (fun s => { s with actions := List.insertionSort nameLe s.actions })

/-! Part: Actions sidebar: toggle-weapon-trait listener -/

/-- A JavaScript value as compared by strict equality in the handler:
`undefined`, `null`, or a string. -/
inductive JSv where
  | undef
  | jsNull
  | str (s : String)
deriving DecidableEq, Repr

/-- The weapon fields read by the `toggle-weapon-trait` case:
`weapon.traits`, the `double-barrel` toggle state, and
`weapon.system.damage.damageType`. -/
structure Weapon where
  traits : List String
  doubleBarrelSelected : Bool
  baseDamageType : Option String
deriving DecidableEq, Repr

/-- The update issued by
`weapon.system.traits.toggles.update({trait, selected})`. -/
inductive ToggleUpdate where
  | doubleBarrel (selected : Bool)
  | versatile (selected : JSv)
deriving DecidableEq, Repr

/-- The error message of the handler. -/
def toggleTraitError : String := "Unexpected failure while toggling weapon trait"

/-- Embedding of `weapon?.system.damage.damageType ?? null` as a JS value. -/
def versatileBaseType (weapon : Option Weapon) : JSv :=
  match weapon with
  | some w =>
      match w.baseDamageType with
      | some s => .str s
      | none => .jsNull
  | none => .jsNull

/-- The `selected` computation of the `versatile` branch:
`button.classList.contains("selected") || value === baseType ? null :
value`. -/
def versatileSelected (weapon : Option Weapon) (value : Option String)
    (hasSelectedClass : Bool) : JSv :=
  let v : JSv := match value with
    | some s => .str s
    | none => .undef
  if hasSelectedClass || v == versatileBaseType weapon then .jsNull else v

/-- Embedding of `objectHasKey(CONFIG.PF2E.damageTypes, selected) || selected ===
null`.  A JS `undefined` satisfies neither disjunct. -/
def versatileValid (damageTypes : List String) (selected : JSv) : Bool :=
  (match selected with
   | .str s => damageTypes.contains s
   | _ => false) || selected == .jsNull

/-- The `toggle-weapon-trait` case of
`PF2eHudSidebarActions._activateListeners` (src/src/hud/token.ts,
lines 776 to 800).  `weapon` is `getStrike(button)?.item`, `trait` is
`button.dataset.trait`, `value` is `button.dataset.value`,
`hasSelectedClass` is `button.classList.contains("selected")` and
`damageTypes` are the keys of `CONFIG.PF2E.damageTypes`.  A thrown
`ErrorPF2e` is an `Except.error`; an `Except.ok` is the toggle update
issued. -/
def toggleWeaponTrait (weapon : Option Weapon) (trait : Option String)
    (value : Option String) (hasSelectedClass : Bool) (damageTypes : List String) :
    Except String ToggleUpdate :=
  if trait = some "double-barrel" then
    let selected := !((weapon.map (fun w => w.doubleBarrelSelected)).getD false)
    match weapon with
    | some w =>
        if w.traits.contains "double-barrel" then .ok (.doubleBarrel selected)
        else .error toggleTraitError
    | none => .error toggleTraitError
  else if trait = some "versatile" then
    let selected := versatileSelected weapon value hasSelectedClass
    match weapon with
    | some _ =>
        if versatileValid damageTypes selected then .ok (.versatile selected)
        else .error toggleTraitError
    | none => .error toggleTraitError
  else .error toggleTraitError

/-! Part: Actions sidebar: use-action listener -/

/-- The item fields read by the `use-action` case. -/
structure UseItem where
  isFeatOrAction : Bool
  frequency : Option Frequency
  selfEffect : Bool
deriving DecidableEq, Repr

/-- The frequency write of the `use-action` case
(src/src/hud/token.ts, lines 864 to 872): `some v` is an
`item.update({"system.frequency.value": v})`, `none` means no update
is issued.  The guard is the JS truthiness test
`frequency?.max && frequency.value`. -/
def useActionFrequencyUpdate (item : Option UseItem) : Option Int :=
  match item with
  | none => none
  | some it =>
      if it.isFeatOrAction = false then none
      else
        match it.frequency with
        | some f => if f.max != 0 && f.value != 0 then some (f.value - 1) else none
        | none => none

/-! Part: Theorems -/

/-- Helper: every single state-machine operation leaves the sidebar
slot empty, because `setToken` force-closes the sidebar first and
`close` cascades. -/
lemma runOp_sidebar_none (s : HudState) (op : HudOp) : (runOp s op).sidebar = none := by
  cases op with
  | setTok t =>
      cases t with
      | none => simp [runOp, setToken, superSetToken, toggleSidebar]
      | some tok => simp [runOp, setToken, superSetToken, toggleSidebar]
  | closeOp => simp [runOp, close]

/-- Helper: an empty sidebar slot stays empty under any further
`setToken`/`close` operations. -/
lemma runOps_sidebar_preserved (ops : List HudOp) :
    ∀ s : HudState, s.sidebar = none → (runOps s ops).sidebar = none := by
  induction ops with
  | nil => intro s h; simpa [runOps] using h
  | cons op rest ih =>
      intro s _
      simpa [runOps] using ih (runOp s op) (runOp_sidebar_none s op)

/-- C1: `setToken` with a non-null candidate whose actor is not owned
by the user, is of type loot or party, already has a rendered sheet,
or is the current actor of the persistent HUD behaves exactly as
`setToken(null)` and leaves the HUD Closed; with an owned,
non-excluded actor it transitions to Open tracking that token. -/
theorem setToken_eligibility (s : HudState) (tok : TokenRef) (a : ActorRef)
    (ha : tok.actor = some a) :
    ((a.isOwner = false ∨ a.actorType = ActorType.loot ∨ a.actorType = ActorType.party ∨
        a.sheetRendered = true ∨ a.persistentCurrent = true) →
      setToken s (some tok) = setToken s none ∧ (setToken s (some tok)).token = none) ∧
    ((a.isOwner = true ∧ a.actorType ≠ ActorType.loot ∧ a.actorType ≠ ActorType.party ∧
        a.sheetRendered = false ∧ a.persistentCurrent = false) →
      setToken s (some tok) = { token := some tok, sidebar := none }) := by
  constructor
  · intro h
    have hin : (!a.isOwner || a.actorType == ActorType.loot || a.actorType == ActorType.party ||
        a.sheetRendered || a.persistentCurrent) = true := by
      rcases h with h | h | h | h | h <;> simp [h]
    simp [setToken, superSetToken, toggleSidebar, ha, hin]
  · rintro ⟨h1, h2, h3, h4, h5⟩
    have hin : (!a.isOwner || a.actorType == ActorType.loot || a.actorType == ActorType.party ||
        a.sheetRendered || a.persistentCurrent) = false := by
      simp [h1, h2, h3, h4, h5]
    simp [setToken, superSetToken, toggleSidebar, ha, hin]

/-- Witness for C1: a concrete unowned actor downgrades to the null
call. -/
theorem setToken_eligibility_witness :
    setToken ⟨none, none⟩ (some ⟨1, some ⟨false, ActorType.npc, false, false⟩⟩) =
      setToken ⟨none, none⟩ none :=
  ((setToken_eligibility ⟨none, none⟩ ⟨1, some ⟨false, ActorType.npc, false, false⟩⟩
    ⟨false, ActorType.npc, false, false⟩ rfl).1 (Or.inl rfl)).1

/-- C2: after any non-empty sequence of `setToken` and `close`
operations, a non-empty sidebar slot implies an open HUD; in fact
every such operation forces the sidebar to None, so in particular no
sequence ending in `close()` or `setToken(null)` leaves a sidebar
open. -/
theorem hud_sidebar_invariant (s : HudState) (ops : List HudOp) (h : ops ≠ []) :
    ((runOps s ops).sidebar ≠ none → (runOps s ops).token ≠ none) ∧
    (runOps s ops).sidebar = none := by
  obtain ⟨op, rest, rfl⟩ := List.exists_cons_of_ne_nil h
  have hnone : (runOps s (op :: rest)).sidebar = none := by
    simpa [runOps] using runOps_sidebar_preserved rest (runOp s op) (runOp_sidebar_none s op)
  exact ⟨fun hc => absurd hnone hc, hnone⟩

/-- Witness for C2 at a concrete sequence ending in `close()`. -/
theorem hud_sidebar_invariant_witness :
    ((runOps ⟨none, some "actions"⟩ [HudOp.closeOp]).sidebar ≠ none →
      (runOps ⟨none, some "actions"⟩ [HudOp.closeOp]).token ≠ none) ∧
    (runOps ⟨none, some "actions"⟩ [HudOp.closeOp]).sidebar = none :=
  hud_sidebar_invariant ⟨none, some "actions"⟩ [HudOp.closeOp] (List.cons_ne_nil _ _)

/-- C3 counterexample: with the `sidebar` policy configured and an
open HUD showing no sidebar, `closeIf` returns `true` although the
state is completely unchanged — no closing action was actually
taken. -/
theorem closeIf_true_without_action :
    (closeIf (fun _ => CloseOption.sidebar) AdvancedHudEvent.sendToChat
        ⟨some ⟨1, none⟩, none⟩).2 = true ∧
    (closeIf (fun _ => CloseOption.sidebar) AdvancedHudEvent.sendToChat
        ⟨some ⟨1, none⟩, none⟩).1 = ⟨some ⟨1, none⟩, none⟩ :=
  ⟨rfl, rfl⟩

/-- C3 (amended): the `closeIf` policy table — `never` is a no-op
returning false, `all` closes the entire HUD, `sidebar` clears only
the sidebar slot leaving the tracked token untouched — and the
returned boolean is true iff the configured policy for the event is
not `never` (the closing call is issued even when nothing was open to
close). -/
theorem closeIf_policy_table (polFor : AdvancedHudEvent → CloseOption)
    (e : AdvancedHudEvent) (s : HudState) :
    (polFor e = CloseOption.never → closeIf polFor e s = (s, false)) ∧
    (polFor e = CloseOption.all → closeIf polFor e s = (close s, true)) ∧
    (polFor e = CloseOption.sidebar →
      closeIf polFor e s = ({ s with sidebar := none }, true)) ∧
    ((closeIf polFor e s).2 = true ↔ polFor e ≠ CloseOption.never) := by
  refine ⟨fun h => by simp [closeIf, h], fun h => by simp [closeIf, h],
    fun h => by simp [closeIf, h, toggleSidebar], ?_⟩
  cases hp : polFor e <;> simp [closeIf, hp]

/-- Witness for C3 at the `all` policy. -/
theorem closeIf_policy_table_witness :
    closeIf (fun _ => CloseOption.all) AdvancedHudEvent.castSpell
        ⟨some ⟨2, none⟩, some "actions"⟩ =
      (close ⟨some ⟨2, none⟩, some "actions"⟩, true) :=
  (closeIf_policy_table (fun _ => CloseOption.all) AdvancedHudEvent.castSpell
    ⟨some ⟨2, none⟩, some "actions"⟩).2.1 rfl

/-- C4: when the parent context has an actor but the stat header lacks
health, `_prepareContext` returns the bare parent data (no stat
blocks), `_renderHTML` produces the empty string, and the subsequent
DOM swap keeps exactly one mounted container. -/
theorem render_short_circuit_no_health (parentData : BaseTokenCtx)
    (hact : parentData.hasActor = true) (rest advanced extras sidebars : List String)
    (tokenName : String) (template : TokenCtx → String) (m : MainElem) (mode : HudMode) :
    prepareContext parentData none rest advanced extras sidebars tokenName =
      TokenCtx.base parentData ∧
    renderHTML template
      (prepareContext parentData none rest advanced extras sidebars tokenName) = "" ∧
    (replaceHTML (some m) mode [] 1).2 = 1 := by
  have h1 : prepareContext parentData none rest advanced extras sidebars tokenName =
      TokenCtx.base parentData := by simp [prepareContext, hact]
  exact ⟨h1, by rw [h1]; rfl, rfl⟩

/-- Witness for C4 at a concrete actor-bearing context with no
health. -/
theorem render_short_circuit_no_health_witness :
    prepareContext ⟨true, []⟩ none [] [] [] [] "tok" = TokenCtx.base ⟨true, []⟩ ∧
    renderHTML (fun _ => "X") (prepareContext ⟨true, []⟩ none [] [] [] [] "tok") = "" ∧
    (replaceHTML (some ⟨[], [], none⟩) HudMode.exploded [] 1).2 = 1 :=
  render_short_circuit_no_health ⟨true, []⟩ rfl [] [] [] [] "tok" (fun _ => "X")
    ⟨[], [], none⟩ HudMode.exploded

/-- Helper: focusing the first input with a given name makes some
input with that name focused, provided one exists. -/
lemma focusFirstNamed_any (n : String) (l : List DomInput)
    (h : ∃ j ∈ l, j.name = n) :
    (focusFirstNamed n l).any (fun j => j.name == n && j.focused) = true := by
  induction l with
  | nil => simp at h
  | cons i is ih =>
      by_cases hi : i.name = n
      · simp [focusFirstNamed, hi, List.any_cons]
      · have h2 : ∃ j ∈ is, j.name = n := by
          obtain ⟨j, hj, hjn⟩ := h
          rcases List.mem_cons.mp hj with rfl | hj2
          · exact absurd hjn hi
          · exact ⟨j, hj2, hjn⟩
        simp [focusFirstNamed, hi, List.any_cons, ih h2]

/-- C5: when an input of the old main element has keyboard focus and a
non-empty name, and the new markup contains an input with that name,
the swap focuses an input with that name in the new subtree; the old
container is replaced rather than mutated, so exactly one main
container remains mounted. -/
theorem replaceHTML_focus_and_single_container (oldMain : MainElem) (mode : HudMode)
    (newInputs : List DomInput) (i : DomInput)
    (hfind : oldMain.inputs.find? (fun x => x.focused) = some i)
    (hname : i.name ≠ "")
    (hnew : ∃ j ∈ newInputs, j.name = i.name) :
    ((replaceHTML (some oldMain) mode newInputs 1).1.inputs.any
        (fun j => j.name == i.name && j.focused)) = true ∧
    (replaceHTML (some oldMain) mode newInputs 1).2 = 1 := by
  refine ⟨?_, rfl⟩
  have hi : (replaceHTML (some oldMain) mode newInputs 1).1.inputs =
      focusFirstNamed i.name newInputs := by
    simp [replaceHTML, applyFocusName, hfind, hname]
  rw [hi]
  exact focusFirstNamed_any i.name newInputs hnew

/-- Witness for C5 at a concrete focused input named `amount`. -/
theorem replaceHTML_focus_witness :
    ((replaceHTML (some ⟨[⟨"amount", true⟩], [], none⟩) HudMode.exploded
        [⟨"amount", false⟩] 1).1.inputs.any
        (fun j => j.name == "amount" && j.focused)) = true ∧
    (replaceHTML (some ⟨[⟨"amount", true⟩], [], none⟩) HudMode.exploded
        [⟨"amount", false⟩] 1).2 = 1 :=
  replaceHTML_focus_and_single_container ⟨[⟨"amount", true⟩], [], none⟩ HudMode.exploded
    [⟨"amount", false⟩] ⟨"amount", true⟩ rfl (by decide) ⟨⟨"amount", false⟩, by simp, rfl⟩

/-- C6: `_updatePosition` returns the position argument unchanged and
writes nothing when no token is tracked or no element is mounted;
otherwise the written geometry is a function of the live canvas
transform, canvas dimensions, token geometry and the
`scaleDimensions` setting only — independent of the previous
position, with no accumulated state. -/
theorem updatePosition_pure (hasMain : Bool) (inp : PositionInputs) (p q : AppPosition) :
    (∀ hasToken hasElement : Bool, hasToken = false ∨ hasElement = false →
      updatePosition hasToken hasElement hasMain inp p = (p, none)) ∧
    updatePosition true true hasMain inp p = updatePosition true true hasMain inp q ∧
    (updatePosition true true hasMain inp p).1 =
      { left := inp.canvasPosition.x
        top := inp.canvasPosition.y
        width := inp.canvasDimensions.width
        height := inp.canvasDimensions.height
        scale := if inp.scaleDimensions then inp.scale else 1 } := by
  refine ⟨?_, rfl, rfl⟩
  rintro ht he (rfl | rfl) <;> simp [updatePosition]

/-- Witness for C6: the guard case at concrete inputs. -/
theorem updatePosition_pure_witness :
    updatePosition false true true
      ⟨⟨3, 4⟩, ⟨100, 200, 50⟩, 2, false, ⟨10, 20, 1, 1⟩⟩ ⟨9, 9, 9, 9, 9⟩ =
      (⟨9, 9, 9, 9, 9⟩, none) :=
  (updatePosition_pure true ⟨⟨3, 4⟩, ⟨100, 200, 50⟩, 2, false, ⟨10, 20, 1, 1⟩⟩
    ⟨9, 9, 9, 9, 9⟩ ⟨0, 0, 0, 0, 0⟩).1 false true (Or.inl rfl)

/-- C7 counterexample: in two-stage mode with a sidebar showing but a
text input focused, the canvas click only blurs the input and leaves
the sidebar (and the whole HUD) open, contrary to the claim that a
click while a sidebar shows closes the sidebar. -/
theorem clickClose_blur_keeps_sidebar :
    clickClose false FocusedElem.textInput ⟨some ⟨1, none⟩, some "actions"⟩ =
      (⟨some ⟨1, none⟩, some "actions"⟩, true) :=
  rfl

/-- C7 (amended): with `closeAllOnCLick` enabled a canvas click closes
the whole HUD immediately; otherwise, a focused text input or textarea
is merely blurred with no state change; else a click with a sidebar
showing closes only the sidebar, and with none showing closes the
whole HUD. -/
theorem clickClose_two_stage (s : HudState) (focused : FocusedElem) :
    (∀ f, clickClose true f s = (close s, false)) ∧
    (focused = FocusedElem.textInput ∨ focused = FocusedElem.textArea →
      clickClose false focused s = (s, true)) ∧
    (s.sidebar.isSome = true →
      clickClose false FocusedElem.other s = ({ s with sidebar := none }, false)) ∧
    (s.sidebar = none →
      clickClose false FocusedElem.other s = (close s, false)) := by
  refine ⟨fun f => rfl, fun h => ?_, fun h => ?_, fun h => ?_⟩
  · rcases h with rfl | rfl <;> rfl
  · simp [clickClose, h, toggleSidebar]
  · simp [clickClose, h]

/-- Witness for C7: the sidebar-only stage at a concrete open state. -/
theorem clickClose_two_stage_witness :
    clickClose false FocusedElem.other ⟨some ⟨1, none⟩, some "actions"⟩ =
      (⟨some ⟨1, none⟩, none⟩, false) :=
  (clickClose_two_stage ⟨some ⟨1, none⟩, some "actions"⟩ FocusedElem.other).2.2.1 rfl

/-- C9: the `toggle-weapon-trait` handler throws on a double-barrel
toggle whose weapon is missing or lacks the trait, on a versatile
toggle whose weapon is missing or whose selection is invalid, and on
any other trait value; an update is issued exactly for the valid
combinations. -/
theorem toggleWeaponTrait_contract (weapon : Option Weapon) (trait : Option String)
    (value : Option String) (hasSel : Bool) (damageTypes : List String) :
    (trait = some "double-barrel" →
      (weapon = none ∨ ∃ w, weapon = some w ∧ "double-barrel" ∉ w.traits) →
      toggleWeaponTrait weapon trait value hasSel damageTypes = .error toggleTraitError) ∧
    (trait = some "versatile" →
      (weapon = none ∨
        versatileValid damageTypes (versatileSelected weapon value hasSel) = false) →
      toggleWeaponTrait weapon trait value hasSel damageTypes = .error toggleTraitError) ∧
    (trait ≠ some "double-barrel" → trait ≠ some "versatile" →
      toggleWeaponTrait weapon trait value hasSel damageTypes = .error toggleTraitError) ∧
    (∀ u, toggleWeaponTrait weapon trait value hasSel damageTypes = .ok u →
      (trait = some "double-barrel" ∧
        ∃ w, weapon = some w ∧ "double-barrel" ∈ w.traits ∧
          u = .doubleBarrel (!w.doubleBarrelSelected)) ∨
      (trait = some "versatile" ∧ (∃ w, weapon = some w) ∧
        versatileValid damageTypes (versatileSelected weapon value hasSel) = true ∧
        u = .versatile (versatileSelected weapon value hasSel))) := by
  refine ⟨?_, ?_, ?_, ?_⟩
  · rintro rfl h
    rcases h with rfl | ⟨w, rfl, hw⟩
    · rfl
    · simp [toggleWeaponTrait, hw]
  · rintro rfl h
    rcases h with rfl | hv
    · rfl
    · cases weapon with
      | none => rfl
      | some w => simp [toggleWeaponTrait, hv]
  · intro h1 h2
    simp [toggleWeaponTrait, h1, h2]
  · intro u hu
    by_cases h1 : trait = some "double-barrel"
    · subst h1
      cases weapon with
      | none => simp [toggleWeaponTrait] at hu
      | some w =>
          by_cases hc : "double-barrel" ∈ w.traits
          · simp [toggleWeaponTrait, hc] at hu
            exact Or.inl ⟨rfl, w, rfl, hc, hu.symm⟩
          · simp [toggleWeaponTrait, hc] at hu
    · by_cases h2 : trait = some "versatile"
      · subst h2
        cases weapon with
        | none => simp [toggleWeaponTrait, h1] at hu
        | some w =>
            by_cases hv : versatileValid damageTypes
                (versatileSelected (some w) value hasSel) = true
            · simp [toggleWeaponTrait, h1, hv] at hu
              exact Or.inr ⟨rfl, ⟨w, rfl⟩, hv, hu.symm⟩
            · simp [toggleWeaponTrait, h1, hv] at hu
      · simp [toggleWeaponTrait, h1, h2] at hu

/-- Witness for C9: an unknown trait value throws. -/
theorem toggleWeaponTrait_contract_witness :
    toggleWeaponTrait none none none false [] = .error toggleTraitError :=
  (toggleWeaponTrait_contract none none none false []).2.2.1 (by simp) (by simp)

/-- C10: the `use-action` handler decrements the frequency value by
exactly one when a frequency with truthy max and a positive value is
present, issues no frequency update when the value is zero or no
truthy max exists, and never drives a nonnegative stored value
negative. -/
theorem useAction_frequency_contract (it : UseItem) (f : Frequency)
    (hk : it.isFeatOrAction = true) (hf : it.frequency = some f) :
    (f.max ≠ 0 → 0 < f.value →
      useActionFrequencyUpdate (some it) = some (f.value - 1)) ∧
    (f.value = 0 ∨ f.max = 0 → useActionFrequencyUpdate (some it) = none) ∧
    (0 ≤ f.value → ∀ v, useActionFrequencyUpdate (some it) = some v → 0 ≤ v) := by
  refine ⟨fun hm hv => ?_, fun h => ?_, fun h0 v hv => ?_⟩
  · have hz : f.value ≠ 0 := by omega
    simp [useActionFrequencyUpdate, hk, hf, hm, hz]
  · rcases h with h | h <;> simp [useActionFrequencyUpdate, hk, hf, h]
  · by_cases hm : f.max = 0
    · simp [useActionFrequencyUpdate, hk, hf, hm] at hv
    · by_cases hz : f.value = 0
      · simp [useActionFrequencyUpdate, hk, hf, hz] at hv
      · simp [useActionFrequencyUpdate, hk, hf, hm, hz] at hv
        omega

/-- Witness for C10: a 2-of-3 uses frequency decrements to 1. -/
theorem useAction_frequency_contract_witness :
    useActionFrequencyUpdate (some ⟨true, some ⟨3, 2, "day"⟩, false⟩) = some 1 := by
  simpa using
    (useAction_frequency_contract ⟨true, some ⟨3, 2, "day"⟩, false⟩ ⟨3, 2, "day"⟩ rfl rfl).1
      (by decide) (by decide)

/-- A row witness: an ability of the actor that generated the row,
together with the eligibility facts established by the loop. -/
def RowWitness (actor : ActorActions) (ext : ActionsExternals) (items : List Ability)
    (ty : SectionType) (ad : ActionData) : Prop :=
  ∃ a ∈ items, a.id = ad.id ∧ a.name = ad.name ∧
    abilityKindAllowed actor.isCharacter a = true ∧
    abilityKept actor ext a = true ∧ abilitySection actor a = ty

/-- Every section carries the fixed label of its type and every row of
it has a witness ability. -/
def SecsOK (actor : ActorActions) (ext : ActionsExternals) (items : List Ability)
    (secs : List ActionSection) : Prop :=
  ∀ s ∈ secs, s.label = ACTION_TYPES_label s.type ∧
    ∀ ad ∈ s.actions, RowWitness actor ext items s.type ad

/-- Helper: a kept ability is neither stance-sourced nor the
elemental-blast duplicate of an active kinetic aura. -/
lemma abilityKept_props (actor : ActorActions) (ext : ActionsExternals) (a : Ability)
    (h : abilityKept actor ext a = true) :
    (∀ src, resolvedSource a = some src →
      (stanceUUIDsOf actor ext).contains src = false) ∧
    ¬(a.slug = some "elemental-blast" ∧ hasKineticAuraOf actor = true) := by
  rw [abilityKept, Bool.not_eq_eq_eq_not, Bool.not_true, Bool.or_eq_false_iff,
    Bool.or_eq_false_iff, Bool.or_eq_false_iff, Bool.or_eq_false_iff] at h
  obtain ⟨⟨⟨⟨hblast, hsrc⟩, _⟩, _⟩, _⟩ := h
  constructor
  · intro src hs
    rw [hs] at hsrc
    exact hsrc
  · rintro ⟨hslug, haura⟩
    rw [hslug, haura] at hblast
    simp at hblast

/-- Helper: adding a row with a witness to sections with witnesses
yields sections with witnesses. -/
lemma secsOK_addToSections (actor : ActorActions) (ext : ActionsExternals)
    (items : List Ability) (ty : SectionType) (ad : ActionData)
    (hw : RowWitness actor ext items ty ad) :
    ∀ secs : List ActionSection, SecsOK actor ext items secs →
      SecsOK actor ext items (addToSections secs ty ad)
  | [], _ => by
      intro s hs
      simp only [addToSections, List.mem_singleton] at hs
      subst hs
      refine ⟨rfl, ?_⟩
      intro ad2 had
      simp only [List.mem_singleton] at had
      subst had
      exact hw
  | s0 :: rest, hOK => by
      have h0 := hOK s0 (List.mem_cons_self s0 rest)
      have hrest : SecsOK actor ext items rest := fun s hs => hOK s (List.mem_cons_of_mem s0 hs)
      by_cases hty : s0.type = ty
      · intro s hs
        simp only [addToSections, if_pos hty] at hs
        rcases List.mem_cons.mp hs with rfl | hs2
        · refine ⟨h0.1, ?_⟩
          intro ad2 had
          rcases List.mem_append.mp had with hin | hin
          · exact h0.2 ad2 hin
          · simp only [List.mem_singleton] at hin
            subst hin
            exact hty.symm ▸ hw
        · exact hOK s (List.mem_cons_of_mem s0 hs2)
      · intro s hs
        simp only [addToSections, if_neg hty] at hs
        rcases List.mem_cons.mp hs with rfl | hs2
        · exact h0
        · exact secsOK_addToSections actor ext items ty ad hw rest hrest s hs2

/-- Helper: the loop fold keeps all rows witnessed. -/
lemma secsOK_foldl (actor : ActorActions) (ext : ActionsExternals) (src : List Ability) :
    ∀ (l : List Ability) (secs : List ActionSection), (∀ x ∈ l, x ∈ src) →
      SecsOK actor ext src secs →
      SecsOK actor ext src (l.foldl (sectionsStep actor ext) secs)
  | [], _, _, hOK => hOK
  | a :: l, secs, hsub, hOK => by
      have hstep : SecsOK actor ext src (sectionsStep actor ext secs a) := by
        unfold sectionsStep
        by_cases hc : (abilityKindAllowed actor.isCharacter a && abilityKept actor ext a) = true
        · rw [if_pos hc]
          have hc2 : abilityKindAllowed actor.isCharacter a = true ∧
              abilityKept actor ext a = true := by simpa using hc
          exact secsOK_addToSections actor ext src (abilitySection actor a)
            (abilityRow actor ext a)
            ⟨a, hsub a (List.mem_cons_self a l), rfl, rfl, hc2.1, hc2.2, rfl⟩
            secs hOK
        · rw [if_neg hc]
          exact hOK
      exact secsOK_foldl actor ext src l (sectionsStep actor ext secs a)
        (fun x hx => hsub x (List.mem_cons_of_mem a hx)) hstep

/-- Helper: the type keys after an insertion are the old keys, with
the new type appended when it was not yet present. -/
lemma addToSections_map_type (ty : SectionType) (ad : ActionData) :
    ∀ secs : List ActionSection,
      (addToSections secs ty ad).map (fun s => s.type) =
        if ty ∈ secs.map (fun s => s.type) then secs.map (fun s => s.type)
        else secs.map (fun s => s.type) ++ [ty]
  | [] => by simp [addToSections]
  | s0 :: rest => by
      by_cases hty : s0.type = ty
      · simp [addToSections, if_pos hty, hty]
      · simp only [addToSections, if_neg hty, List.map_cons, addToSections_map_type ty ad rest]
        by_cases hmem : ty ∈ rest.map (fun s => s.type)
        · simp [hmem, Ne.symm hty]
        · simp [hmem, Ne.symm hty]

/-- Helper: insertion preserves distinctness of the type keys. -/
lemma addToSections_types_nodup (ty : SectionType) (ad : ActionData)
    (secs : List ActionSection) (h : (secs.map (fun s => s.type)).Nodup) :
    ((addToSections secs ty ad).map (fun s => s.type)).Nodup := by
  rw [addToSections_map_type]
  by_cases hmem : ty ∈ secs.map (fun s => s.type)
  · simpa [hmem] using h
  · simpa [hmem] using (List.nodup_append).mpr ⟨h, List.nodup_singleton ty,
      List.disjoint_singleton.mpr hmem⟩

/-- Helper: the loop fold keeps the type keys distinct. -/
lemma foldl_types_nodup (actor : ActorActions) (ext : ActionsExternals) :
    ∀ (l : List Ability) (secs : List ActionSection),
      (secs.map (fun s => s.type)).Nodup →
      ((l.foldl (sectionsStep actor ext) secs).map (fun s => s.type)).Nodup
  | [], _, h => h
  | a :: l, secs, h => by
      apply foldl_types_nodup actor ext l
      unfold sectionsStep
      by_cases hc : (abilityKindAllowed actor.isCharacter a && abilityKept actor ext a) = true
      · rw [if_pos hc]
        exact addToSections_types_nodup _ _ _ h
      · rw [if_neg hc]
        exact h

/-- C8 (amended): for every actor the produced `actionSections` are
sorted by the fixed type order (action, reaction, free, then
passive/exploration), each section holds at most one type and its rows
are sorted by name, and every row stems from a kept ability of the
matching type — in particular no ability whose resolved source UUID is
in the stance list, and no elemental-blast ability of a kineticist
character with an active kinetic-aura effect, appears in any
section. -/
theorem actionSections_spec (actor : ActorActions) (ext : ActionsExternals) :
    List.Sorted secLe (buildActionSections actor ext) ∧
    (∀ s ∈ buildActionSections actor ext, List.Sorted nameLe s.actions) ∧
    ((buildActionSections actor ext).map (fun s => s.type)).Nodup ∧
    (∀ s ∈ buildActionSections actor ext, ∀ ad ∈ s.actions,
      ∃ a ∈ actor.items, a.id = ad.id ∧ a.name = ad.name ∧
        abilitySection actor a = s.type ∧ abilityKept actor ext a = true ∧
        (∀ src, resolvedSource a = some src →
          (stanceUUIDsOf actor ext).contains src = false) ∧
        ¬(a.slug = some "elemental-blast" ∧ hasKineticAuraOf actor = true)) := by
  have hunfold : buildActionSections actor ext =
      (List.insertionSort secLe (actor.items.foldl (sectionsStep actor ext) [])).map
        (fun s => { s with actions := List.insertionSort nameLe s.actions }) := rfl
  refine ⟨?_, ?_, ?_, ?_⟩
  · rw [hunfold, List.Sorted, List.pairwise_map]
    exact List.sorted_insertionSort secLe (actor.items.foldl (sectionsStep actor ext) [])
  · intro s hs
    rw [hunfold] at hs
    obtain ⟨t, _, rfl⟩ := List.mem_map.mp hs
    exact List.sorted_insertionSort nameLe t.actions
  · rw [hunfold, List.map_map]
    have hco : ((fun s : ActionSection => s.type) ∘
        (fun s => { s with actions := List.insertionSort nameLe s.actions })) =
        fun s : ActionSection => s.type := rfl
    rw [hco]
    rw [List.Perm.nodup_iff
      (((List.perm_insertionSort secLe (actor.items.foldl (sectionsStep actor ext) []))).map
        (fun s => s.type))]
    exact foldl_types_nodup actor ext actor.items [] (by simp)
  · have hOK : SecsOK actor ext actor.items (actor.items.foldl (sectionsStep actor ext) []) :=
      secsOK_foldl actor ext actor.items actor.items [] (fun x hx => hx)
        (fun s hs => absurd hs (List.not_mem_nil s))
    intro s hs ad had
    rw [hunfold] at hs
    obtain ⟨t, ht, rfl⟩ := List.mem_map.mp hs
    have ht2 : t ∈ actor.items.foldl (sectionsStep actor ext) [] :=
      ((List.perm_insertionSort secLe (actor.items.foldl (sectionsStep actor ext) [])).mem_iff).mp ht
    have had2 : ad ∈ t.actions :=
      ((List.perm_insertionSort nameLe t.actions).mem_iff).mp had
    obtain ⟨a, hain, hid, hname, _, hkept, hty⟩ := (hOK t ht2).2 ad had2
    have hex := abilityKept_props actor ext a hkept
    exact ⟨a, hain, hid, hname, hty, hkept, hex.1, hex.2⟩

/-- A sample set of external collaborators for concrete evaluation of
the actions sidebar. -/
def sampleExt : ActionsExternals :=
  { stanceActionUUIDs := none
    actionableEnabled := false
    actionMacroOf := fun _ => false
    perLabel := fun p => p
    useLabel := "Use"
    actionIcon := fun _ => "icon"
    actionGlyph := fun _ => "g" }

/-- A sample non-character actor with one single-action ability. -/
def sampleActor : ActorActions :=
  { isCharacter := false
    kineticist := false
    effectSlugs := []
    partiesSize := 0
    explorations := []
    items := [⟨"a1", "Bite", .actionKind, none, none, none, [], some .action, none, false⟩] }

/-- Witness for C8: the single row of the sample actor is witnessed by
its one ability. -/
theorem actionSections_spec_witness :
    ∃ a ∈ sampleActor.items, a.id = "a1" ∧ a.name = "Bite" ∧
      abilitySection sampleActor a = SectionType.action ∧
      abilityKept sampleActor sampleExt a = true ∧
      (∀ src, resolvedSource a = some src →
        (stanceUUIDsOf sampleActor sampleExt).contains src = false) ∧
      ¬(a.slug = some "elemental-blast" ∧ hasKineticAuraOf sampleActor = true) :=
  (actionSections_spec sampleActor sampleExt).2.2.2
    ⟨SectionType.action, "PF2E.ActionsActionsHeader", [⟨"a1", none, none, "Bite", "icon", false⟩]⟩
    (by decide) ⟨"a1", none, none, "Bite", "icon", false⟩ (by decide)

/-- A character actor carrying an active kinetic-aura effect but no
kineticist flag, with an elemental-blast ability item. -/
def auraActor : ActorActions :=
  { isCharacter := true
    kineticist := false
    effectSlugs := ["effect-kinetic-aura"]
    partiesSize := 0
    explorations := []
    items := [⟨"blast1", "Elemental Blast", .actionKind, some "elemental-blast", none, none, [],
      some .action, none, false⟩] }

/-- C8 counterexample: the actor has an active kinetic-aura effect and
an elemental-blast ability, yet the ability appears in the produced
sections — the code additionally requires the kineticist flag before
excluding the blast duplicate. -/
theorem actionSections_blast_not_excluded :
    (∃ a ∈ auraActor.items, a.slug = some "elemental-blast") ∧
    "effect-kinetic-aura" ∈ auraActor.effectSlugs ∧
    ∃ s ∈ buildActionSections auraActor sampleExt, ∃ ad ∈ s.actions,
      ad.id = "blast1" ∧ ad.name = "Elemental Blast" := by
  decide
